import Mathlib

/-
Verification development for the DJANDES bakery GitHub synchronization
library (src/github-integration.js).  The JavaScript source is shallowly
embedded: JSON values become the inductive `Json`, the remote contents
store becomes an explicit `Store` threaded through every operation, and
each method of the `GitHubIntegration` class becomes a function in the
state-and-error monad `M`.  The base64 / JSON-text encoding layer
(`btoa`/`atob`, `JSON.stringify`/`JSON.parse`) is modelled as the
identity on `Json` values, since the two compositions are mutually
inverse and no claim depends on the byte-level representation.
-/

set_option autoImplicit false

namespace Djandes

/-- JavaScript values that can flow through this library: the six JSON
value forms plus `undefVal`, which models the JavaScript `undefined` that
arises from reading an absent property.  `undefVal` is never stored in a
document; it only appears transiently.  Numbers are modelled as integers
(every number the library manipulates - ids from `Date.now()`, prices,
stocks - is integral). -/
inductive Json where
  | null
  | undefVal
  | bool (b : Bool)
  | num (n : Int)
  | str (s : String)
  | arr (elems : List Json)
  | obj (fields : List (String × Json))

/-- First binding of a key in an object field list (JavaScript object
field lists as produced by `JSON.parse` have distinct keys, so first
and only). -/
def lookupField (fs : List (String × Json)) (k : String) : Option Json :=
  match fs with
  | [] => none
  | (k1, v1) :: rest => if k1 = k then some v1 else lookupField rest k

/-- Whether a key occurs in a field list. -/
def hasKey (fs : List (String × Json)) (k : String) : Bool :=
  match fs with
  | [] => false
  | (k1, _) :: rest => k1 = k || hasKey rest k

/-- JavaScript property read `j[k]` for a base value that is neither
`null` nor `undefined`: an absent key yields `undefined`; property reads
on numbers, booleans and strings yield `undefined` for the keys this
library uses (`id`, `status`, document field names). -/
def propOf (j : Json) (k : String) : Json :=
  match j with
  | .obj fs => (lookupField fs k).getD .undefVal
  | _ => .undefVal

/-- Property assignment as in object-literal evaluation: an existing
binding is overwritten in place (the key keeps its original position),
a new key is appended. -/
def insertProp (fs : List (String × Json)) (k : String) (v : Json) : List (String × Json) :=
  if hasKey fs k then fs.map (fun kv => (kv.1, if kv.1 = k then v else kv.2))
  else fs ++ [(k, v)]

/-- Evaluation of a JavaScript object literal given the ordered stream of
key/value pairs contributed by its explicit properties and spreads:
later bindings of the same key overwrite earlier ones in place. -/
def objLit (props : List (String × Json)) : List (String × Json) :=
  props.foldl (fun acc kv => insertProp acc kv.1 kv.2) []

/-- Fields contributed by `...j` inside an object literal: spreading an
object contributes its fields, spreading `null`, `undefined`, a number
or a boolean contributes nothing.  (Spreading a string or an array would
contribute index properties; the library only ever spreads record
objects, and every theorem below restricts spread arguments to
`Json.obj`.) -/
def spreadFields (j : Json) : List (String × Json) :=
  match j with
  | .obj fs => fs
  | _ => []

/-- JavaScript truthiness of a value, as used by `if (x)` and `!x` in the
source (`importData`).  `NaN` does not arise in the integer model. -/
def truthy (j : Json) : Bool :=
  match j with
  | .null => false
  | .undefVal => false
  | .bool b => b
  | .num n => n != 0
  | .str s => s ≠ ""
  | .arr _ => true
  | .obj _ => true

/-- JavaScript strict equality `===` restricted to the comparisons the
library performs (`p.id === productId` and friends).  Primitives compare
structurally; `undefined === undefined` holds.  Two compound values
(arrays / objects) compare by reference in JavaScript, and in every flow
of this library the two sides of an id comparison come from different
`JSON.parse` calls, hence are distinct references: the comparison is
`false`, as modelled here. -/
def strictEq (a b : Json) : Bool :=
  match a, b with
  | .null, .null => true
  | .undefVal, .undefVal => true
  | .bool x, .bool y => x == y
  | .num x, .num y => x == y
  | .str x, .str y => x == y
  | _, _ => false

/-- Template-literal stringification of the values interpolated into
commit messages (always ids: numbers or strings in practice).  Array
stringification is approximated by the empty string; no theorem depends
on it. -/
def jstr (j : Json) : String :=
  match j with
  | .null => "null"
  | .undefVal => "undefined"
  | .bool b => if b then "true" else "false"
  | .num n => toString n
  | .str s => s
  | .arr _ => ""
  | .obj _ => "[object Object]"

/-! Substring search, needed because the source dispatches on whether
the literal "404" occurs in `error.message`. -/

/-- Whether `needle` is an initial segment of `hay`. -/
def hasPfx (needle hay : List Char) : Bool :=
  match needle, hay with
  | [], _ => true
  | _ :: _, [] => false
  | a :: as, b :: bs => a == b && hasPfx as bs

/-- Whether `needle` occurs contiguously anywhere in `hay`
(JavaScript `String.prototype.includes`). -/
def hasSub (needle : List Char) : List Char → Bool
  | [] => hasPfx needle []
  | c :: rest => hasPfx needle (c :: rest) || hasSub needle rest

/-- `message.includes("404")` from lines 78 and 104 of the source. -/
def contains404 (s : String) : Bool :=
  hasSub ['4', '0', '4'] s.data

/-! The error and remote-store model. -/

/-- A thrown JavaScript `Error`: the library only ever inspects and
rebuilds the `message` string. -/
structure Err where
  message : String
deriving DecidableEq

/-- The message `makeRequest` attaches to a non-ok response (line 63):
`GitHub API Error: STATUS - MESSAGE`, where MESSAGE is the
server-supplied message field (falling back to the status text). -/
def apiErrMsg (status : Nat) (srvMsg : String) : String :=
  "GitHub API Error: " ++ toString status ++ " - " ++ srvMsg

/-- HTTP method of a contents-API call made by the library. -/
inductive Method where
  | get
  | put
  | post
deriving DecidableEq

/-- A file held by the remote contents store: its opaque concurrency
token (`sha`, modelled as a counter) and its document (the decoded JSON
content). -/
structure File where
  sha : Nat
  doc : Json

/-- A write request issued to the remote store, recorded for the write
trace: target path, verb, decoded document, the `sha` field of the
request body when present, and the commit message. -/
structure WriteEv where
  path : String
  method : Method
  doc : Json
  sha : Option Nat
  commitMsg : String

/-- State of the remote store (the collaborator of section 6 of the
spec): the files by path, a counter producing fresh concurrency tokens,
and the trace of every write request accepted so far. -/
structure Store where
  files : String → Option File
  nextSha : Nat
  writes : List WriteEv

/-- The effect monad of every operation: state (the remote store) plus
thrown errors.  An error does not roll the store back - writes performed
before a throw persist, exactly as network writes do. -/
def M (α : Type) : Type := Store → Except Err α × Store

def mret {α : Type} (a : α) : M α := fun s => (.ok a, s)

def mbind {α β : Type} (x : M α) (f : α → M β) : M β := fun s =>
  match x s with
  | (.ok a, s1) => f a s1
  | (.error e, s1) => (.error e, s1)

def mthrow {α : Type} (e : Err) : M α := fun s => (.error e, s)

/-- `try x catch e => h e`: the handler sees the state as left by the
failing body. -/
def mtry {α : Type} (x : M α) (h : Err → M α) : M α := fun s =>
  match x s with
  | (.ok a, s1) => (.ok a, s1)
  | (.error e, s1) => h e s1

/-- Lift a pure fallible computation. -/
def mliftE {α : Type} (x : Except Err α) : M α := fun s => (x, s)

/-- Response of a successful GET on a file path: the decoded document
and its concurrency token (the `content` and `sha` fields of the
contents-API response). -/
structure GetResp where
  content : Json
  sha : Nat

/-- GET on a file path against the live store: a present file is
returned with its token, an absent one produces the 404 error message
`makeRequest` would throw (GitHub answers `{"message":"Not Found"}`). -/
def reqGet (path : String) : M GetResp := fun s =>
  match s.files path with
  | some f => (.ok ⟨f.doc, f.sha⟩, s)
  | none => (.error ⟨apiErrMsg 404 "Not Found"⟩, s)

/-- The store after an accepted write: the file at `path` is replaced
(or created) with a fresh token, and the write is recorded in the
trace. -/
def putStore (s : Store) (path : String) (doc : Json) (method : Method)
    (sha : Option Nat) (msg : String) : Store :=
  { files := fun p => if p = path then some ⟨s.nextSha, doc⟩ else s.files p
    nextSha := s.nextSha + 1
    writes := s.writes ++ [⟨path, method, doc, sha, msg⟩] }

/-- Body of a successful write response; the library never reads it, so
it is modelled as the empty object. -/
def writeOkResp : Json := .obj []

/-- PUT or POST of a document against the live store (the happy-path
collaborator semantics of spec section 6: both verbs upsert the file,
differing only in whether a `sha` accompanies the body). -/
def reqWrite (path : String) (method : Method) (doc : Json)
    (sha : Option Nat) (msg : String) : M Json := fun s =>
  (.ok writeOkResp, putStore s path doc method sha msg)

/-! The default documents (`getDefaultData`, lines 118-206). -/

def productsPath : String := "data/products.json"
def categoriesPath : String := "data/categories.json"
def ordersPath : String := "data/orders.json"
def contactsPath : String := "data/contacts.json"
def websitePath : String := "data/website.json"

/-- The five built-in demo products (lines 121-172). -/
def defaultProducts : List Json :=
  [ .obj [("id", .num 1), ("name", .str "Roti Tawar Premium"), ("categoryId", .num 1),
      ("price", .num 25000), ("stock", .num 50), ("discount", .num 0),
      ("image", .str "https://images.unsplash.com/photo-1509440159596-0249088772ff?ixlib=rb-4.0.3&ixid=M3wxMjA3fDB8MHxwaG90by1wYWdlfHx8fGVufDB8fHx8fA%3D%3D&auto=format&fit=crop&w=1000&q=80"),
      ("description", .str "Roti tawar lembut dengan kualitas premium")],
    .obj [("id", .num 2), ("name", .str "Croissant Butter"), ("categoryId", .num 1),
      ("price", .num 18000), ("stock", .num 30), ("discount", .num 10),
      ("image", .str "https://images.unsplash.com/photo-1555507032-abfa424c5b2d?ixlib=rb-4.0.3&ixid=M3wxMjA3fDB8MHxwaG90by1wYWdlfHx8fGVufDB8fHx8fA%3D%3D&auto=format&fit=crop&w=1000&q=80"),
      ("description", .str "Croissant butter yang renyah dan lezat")],
    .obj [("id", .num 3), ("name", .str "Donat Glaze"), ("categoryId", .num 2),
      ("price", .num 12000), ("stock", .num 25), ("discount", .num 0),
      ("image", .str "https://images.unsplash.com/photo-1551024601-bec78aea704b?ixlib=rb-4.0.3&ixid=M3wxMjA3fDB8MHxwaG90by1wYWdlfHx8fGVufDB8fHx8fA%3D%3D&auto=format&fit=crop&w=1000&q=80"),
      ("description", .str "Donat dengan glaze manis")],
    .obj [("id", .num 4), ("name", .str "Brownies Coklat"), ("categoryId", .num 2),
      ("price", .num 35000), ("stock", .num 20), ("discount", .num 15),
      ("image", .str "https://images.unsplash.com/photo-1606313564200-e75d5e30476c?ixlib=rb-4.0.3&ixid=M3wxMjA3fDB8MHxwaG90by1wYWdlfHx8fGVufDB8fHx8fA%3D%3D&auto=format&fit=crop&w=1000&q=80"),
      ("description", .str "Brownies coklat yang lembut dan moist")],
    .obj [("id", .num 5), ("name", .str "French Baguette"), ("categoryId", .num 1),
      ("price", .num 22000), ("stock", .num 15), ("discount", .num 0),
      ("image", .str "https://images.unsplash.com/photo-1586444248902-2f64eddc13df?ixlib=rb-4.0.3&ixid=M3wxMjA3fDB8MHxwaG90by1wYWdlfHx8fGVufDB8fHx8fA%3D%3D&auto=format&fit=crop&w=1000&q=80"),
      ("description", .str "Baguette Perancis yang autentik")] ]

/-- The three built-in demo categories (lines 173-190). -/
def defaultCategories : List Json :=
  [ .obj [("id", .num 1), ("name", .str "Roti"), ("description", .str "Berbagai macam roti segar")],
    .obj [("id", .num 2), ("name", .str "Kue"), ("description", .str "Aneka kue manis dan lezat")],
    .obj [("id", .num 3), ("name", .str "Pastry"), ("description", .str "Pastry premium dengan rasa internasional")] ]

/-- The built-in website settings record (lines 195-202). -/
def defaultWebsite : Json :=
  .obj [("name", .str "DJANDES Bakery"), ("email", .str "info@djandesbakery.com"),
    ("phone", .str "+62 21 1234 5678"),
    ("address", .str "Jl. Bakery No. 123, Jakarta, Indonesia"),
    ("description", .str "DJANDES Bakery telah melayani pelanggan sejak 2010 dengan komitmen untuk memberikan produk roti dan kue berkualitas tinggi.")]

/-- `getDefaultData(path)` (lines 118-206): the switch over the five
known data paths, whose default branch returns `null`. -/
def getDefaultData (path : String) : Json :=
  if path = productsPath then .arr defaultProducts
  else if path = categoriesPath then .arr defaultCategories
  else if path = ordersPath then .arr []
  else if path = contactsPath then .arr []
  else if path = websitePath then defaultWebsite
  else .null

/-- `getFile(path)` (lines 72-84): GET the file and return its decoded
content; a caught error whose message contains "404" is answered with
the built-in default document for the path, any other error is
rethrown. -/
def getFile (path : String) : M Json :=
  mtry (mbind (reqGet path) (fun r => mret r.content))
    (fun e =>
      if contains404 e.message then mret (getDefaultData path)
      else mthrow e)

/-- `saveFile(path, data, message)` (lines 89-113): GET the existing
file first; on success PUT the new content together with the existing
concurrency token; if the GET (or the PUT itself, both being inside the
same try) failed with a message containing "404", POST the content
without a token; any other error is rethrown. -/
def saveFile (path : String) (data : Json) (msg : String) : M Json :=
  mtry (mbind (reqGet path) (fun existing =>
      reqWrite path .put data (some existing.sha) msg))
    (fun e =>
      if contains404 e.message then reqWrite path .post data none msg
      else mthrow e)

/-- A sequence document must actually be an array before the source can
call `.push` / `.findIndex` / `.filter` on it; on any other JSON value
those method calls raise a `TypeError`. -/
def asArrM (j : Json) : M (List Json) :=
  match j with
  | .arr xs => mret xs
  | _ => mthrow ⟨"TypeError: not an array"⟩

/-- JavaScript property read whose base may be `null` or `undefined`, in
which case it throws (the source runs in strict mode, being a class
body). -/
def getPropM (j : Json) (k : String) : M Json :=
  match j with
  | .null => mthrow ⟨"TypeError: Cannot read properties of null"⟩
  | .undefVal => mthrow ⟨"TypeError: Cannot read properties of undefined"⟩
  | _ => mret (propOf j k)

/-- The record built by `addProduct` / `addCategory` (lines 217-220 and
253-256): the object literal spreading the input after the generated
id, so an input id field overwrites the generated one. -/
def newRecord (now : Int) (input : Json) : Json :=
  .obj (objLit (("id", .num now) :: spreadFields input))

/-- The record built by the update operations (lines 232 and 268): the
input fields shallow-merged over the existing record. -/
def mergedRecord (old input : Json) : Json :=
  .obj (objLit (spreadFields old ++ spreadFields input))

/-- `products.findIndex(p => p.id === productId)` and its analogues,
returning the index as an option instead of -1. -/
def findIdxById (rs : List Json) (target : Json) : Option Nat :=
  match rs with
  | [] => none
  | p :: rest =>
      if strictEq (propOf p "id") target then some 0
      else (findIdxById rest target).map (fun n => n + 1)

/-- `filter(p => p.id !== productId)` and its analogues. -/
def removeById (rs : List Json) (target : Json) : List Json :=
  rs.filter (fun p => !(strictEq (propOf p "id") target))

/-! The entity operations (lines 211-336).  `Date.now()` is passed in
as the explicit parameter `now`. -/

def getProducts : M Json := getFile productsPath

def addProduct (now : Int) (productData : Json) : M Json :=
  mbind getProducts (fun pj =>
  mbind (asArrM pj) (fun products =>
  mbind (saveFile productsPath (.arr (products ++ [newRecord now productData]))
      "Add new product") (fun _ =>
  mret (newRecord now productData))))

def updateProduct (productId : Json) (productData : Json) : M Json :=
  mbind getProducts (fun pj =>
  mbind (asArrM pj) (fun products =>
  match findIdxById products productId with
  | none => mthrow ⟨"Product not found"⟩
  | some i =>
      mbind (saveFile productsPath
          (.arr (products.set i (mergedRecord (products.getD i .undefVal) productData)))
          ("Update product " ++ jstr productId)) (fun _ =>
      mret (mergedRecord (products.getD i .undefVal) productData))))

def deleteProduct (productId : Json) : M Json :=
  mbind getProducts (fun pj =>
  mbind (asArrM pj) (fun products =>
  mbind (saveFile productsPath (.arr (removeById products productId))
      ("Delete product " ++ jstr productId)) (fun _ =>
  mret (.bool true))))

def getCategories : M Json := getFile categoriesPath

def addCategory (now : Int) (categoryData : Json) : M Json :=
  mbind getCategories (fun cj =>
  mbind (asArrM cj) (fun categories =>
  mbind (saveFile categoriesPath (.arr (categories ++ [newRecord now categoryData]))
      "Add new category") (fun _ =>
  mret (newRecord now categoryData))))

def updateCategory (categoryId : Json) (categoryData : Json) : M Json :=
  mbind getCategories (fun cj =>
  mbind (asArrM cj) (fun categories =>
  match findIdxById categories categoryId with
  | none => mthrow ⟨"Category not found"⟩
  | some i =>
      mbind (saveFile categoriesPath
          (.arr (categories.set i (mergedRecord (categories.getD i .undefVal) categoryData)))
          ("Update category " ++ jstr categoryId)) (fun _ =>
      mret (mergedRecord (categories.getD i .undefVal) categoryData))))

def deleteCategory (categoryId : Json) : M Json :=
  mbind getCategories (fun cj =>
  mbind (asArrM cj) (fun categories =>
  mbind (saveFile categoriesPath (.arr (removeById categories categoryId))
      ("Delete category " ++ jstr categoryId)) (fun _ =>
  mret (.bool true))))

def getOrders : M Json := getFile ordersPath

def saveOrder (orderData : Json) : M Json :=
  mbind getOrders (fun oj =>
  mbind (asArrM oj) (fun orders =>
  mbind (getPropM orderData "id") (fun oid =>
  mbind (saveFile ordersPath (.arr (orders ++ [orderData]))
      ("Save order " ++ jstr oid)) (fun _ =>
  mret orderData))))

def getContacts : M Json := getFile contactsPath

def saveContact (contactData : Json) : M Json :=
  mbind getContacts (fun cj =>
  mbind (asArrM cj) (fun contacts =>
  mbind (getPropM contactData "id") (fun cid =>
  mbind (saveFile contactsPath (.arr (contacts ++ [contactData]))
      ("Save contact " ++ jstr cid)) (fun _ =>
  mret contactData))))

def deleteContact (contactId : Json) : M Json :=
  mbind getContacts (fun cj =>
  mbind (asArrM cj) (fun contacts =>
  mbind (saveFile contactsPath (.arr (removeById contacts contactId))
      ("Delete contact " ++ jstr contactId)) (fun _ =>
  mret (.bool true))))

def getWebsiteConfig : M Json := getFile websitePath

def updateWebsiteConfig (configData : Json) : M Json :=
  mbind (saveFile websitePath configData "Update website configuration") (fun _ =>
  mret configData)

/-! The bulk operations (lines 400-520).  ISO timestamps are passed in
as the explicit parameter `ts`. -/

/-- The snapshot object assembled by `exportData` (lines 474-481). -/
def exportSnapshot (ts : String) (ps cs os cts wb : Json) : Json :=
  .obj [("timestamp", .str ts), ("products", ps), ("categories", cs),
    ("orders", os), ("contacts", cts), ("website", wb)]

/-- Body of the try block of `exportData` (lines 474-483): read the five
live documents and assemble the snapshot object. -/
def exportBody (ts : String) : M Json :=
  mbind getProducts (fun ps =>
  mbind getCategories (fun cs =>
  mbind getOrders (fun os =>
  mbind getContacts (fun cts =>
  mbind getWebsiteConfig (fun wb =>
  mret (exportSnapshot ts ps cs os cts wb))))))

/-- `exportData()` (lines 472-487): any underlying error is rewrapped
with a "Failed to export data" message. -/
def exportData (ts : String) : M Json :=
  mtry (exportBody ts)
    (fun e => mthrow ⟨"Failed to export data: " ++ e.message⟩)

/-- The success record `importData` returns (lines 513-516). -/
def importOkResp : Json :=
  .obj [("success", .bool true), ("message", .str "Data imported successfully")]

/-- One conditional write of `importData` (lines 501-511): the document
is written only when the snapshot member is truthy. -/
def importOpt (path : String) (v : Json) (msg : String) : M Unit :=
  if truthy v then
    mbind (saveFile path v msg) (fun _ => mret ())
  else mret ()

/-- Body of the try block of `importData` (lines 494-516): reject a
snapshot whose `products` or `categories` member is falsy (in
particular absent), write those two documents, then write `orders` /
`contacts` / `website` only when truthy. -/
def importBody (snap : Json) : M Json :=
  mbind (getPropM snap "products") (fun prods =>
  mbind (getPropM snap "categories") (fun cats =>
  if !truthy prods || !truthy cats then
    mthrow ⟨"Invalid import data format"⟩
  else
    mbind (saveFile productsPath prods "Import products") (fun _ =>
    mbind (saveFile categoriesPath cats "Import categories") (fun _ =>
    mbind (getPropM snap "orders") (fun os =>
    mbind (importOpt ordersPath os "Import orders") (fun _ =>
    mbind (getPropM snap "contacts") (fun cts =>
    mbind (importOpt contactsPath cts "Import contacts") (fun _ =>
    mbind (getPropM snap "website") (fun wb =>
    mbind (importOpt websitePath wb "Import website config") (fun _ =>
    mret importOkResp))))))))))

/-- `importData(importData)` (lines 492-520): any underlying error is
rewrapped with a "Failed to import data" message. -/
def importData (snap : Json) : M Json :=
  mtry (importBody snap)
    (fun e => mthrow ⟨"Failed to import data: " ++ e.message⟩)

/-- Body of the try block of `restoreData` (lines 429-440): read the
snapshot at the given path and overwrite the five live documents from
its members. -/
def restoreBody (backupPath : String) : M Json :=
  mbind (getFile backupPath) (fun backup =>
  mbind (getPropM backup "products") (fun prods =>
  mbind (saveFile productsPath prods "Restore products from backup") (fun _ =>
  mbind (getPropM backup "categories") (fun cats =>
  mbind (saveFile categoriesPath cats "Restore categories from backup") (fun _ =>
  mbind (getPropM backup "orders") (fun os =>
  mbind (saveFile ordersPath os "Restore orders from backup") (fun _ =>
  mbind (getPropM backup "contacts") (fun cts =>
  mbind (saveFile contactsPath cts "Restore contacts from backup") (fun _ =>
  mbind (getPropM backup "website") (fun wb =>
  mbind (saveFile websitePath wb "Restore website config from backup") (fun _ =>
  mbind (getPropM backup "timestamp") (fun ts =>
  mret (.obj [("success", .bool true), ("timestamp", ts)])))))))))))))

/-- `restoreData(backupPath)` (lines 427-444): any underlying error is
rewrapped with a "Failed to restore backup" message. -/
def restoreData (backupPath : String) : M Json :=
  mtry (restoreBody backupPath)
    (fun e => mthrow ⟨"Failed to restore backup: " ++ e.message⟩)

/-! Outcome-level model of `getFile` and `saveFile`, for the claims that
quantify over arbitrary behaviours of the remote side.  A
`FetchOutcome` is what the initial `makeRequest` GET can come back
with; the functions below are the source lines 72-84 and 89-113 read as
functions of that outcome. -/

/-- Outcome of the `makeRequest` GET: a decoded content with its
concurrency token, or a non-ok response with its HTTP status and
server-supplied message. -/
inductive FetchOutcome where
  | success (content : Json) (sha : Nat)
  | failure (status : Nat) (srvMsg : String)

/-- Result of `getFile` (lines 72-84) as a function of the GET outcome:
content on success; the built-in default when the thrown message
contains "404"; the error unchanged otherwise. -/
def getFileResult (path : String) (o : FetchOutcome) : Except Err Json :=
  match o with
  | .success content _ => .ok content
  | .failure st m =>
      if contains404 (apiErrMsg st m) then .ok (getDefaultData path)
      else .error ⟨apiErrMsg st m⟩

/-- A write request issued by `saveFile`: PUT carries the concurrency
token obtained from the preceding GET, POST carries none. -/
inductive WriteReq where
  | putReq (commitMsg : String) (content : Json) (sha : Nat)
  | postReq (commitMsg : String) (content : Json)

/-- The write request `saveFile` (lines 89-113) issues as a function of
the outcome of its initial GET: a successful GET leads to a PUT with the
fetched token; a failure whose message contains "404" leads to a POST
without a token; any other failure is rethrown with no write issued. -/
def saveFileWrite (o : FetchOutcome) (commitMsg : String) (content : Json) :
    Except Err WriteReq :=
  match o with
  | .success _ sha => .ok (.putReq commitMsg content sha)
  | .failure st m =>
      if contains404 (apiErrMsg st m) then .ok (.postReq commitMsg content)
      else .error ⟨apiErrMsg st m⟩

/-! Derived predicates used to state the claims, and concrete fixtures
used by witnesses and counterexamples. -/

/-- Last binding of a key in an ordered key/value stream; this is the
binding that survives object-literal evaluation. -/
def lookupLast (fs : List (String × Json)) (k : String) : Option Json :=
  match fs with
  | [] => none
  | (k1, v1) :: rest =>
      match lookupLast rest k with
      | some v => some v
      | none => if k1 = k then some v1 else none

/-- Field lists with pairwise-distinct keys (the shape `JSON.parse`
produces). -/
def ukeys (fs : List (String × Json)) : Bool :=
  match fs with
  | [] => true
  | (k1, _) :: rest => !hasKey rest k1 && ukeys rest

/-- Whether a value is a record object. -/
def isObjJ (j : Json) : Bool :=
  match j with
  | .obj _ => true
  | _ => false

/-- Whether every element of a sequence is a record object (the shape of
every sequence document this library writes). -/
def allObjs (rs : List Json) : Bool :=
  rs.all isObjJ

/-- No record of `rs` has an id strictly equal to `target`. -/
def idFresh (target : Json) (rs : List Json) : Bool :=
  rs.all (fun r => !(strictEq (propOf r "id") target))

/-- The id-uniqueness invariant of a sequence document: every record id
is fresh with respect to the records after it. -/
def uniqueIds (rs : List Json) : Bool :=
  match rs with
  | [] => true
  | r :: rest => idFresh (propOf r "id") rest && uniqueIds rest

/-- The sequence stored at a path, for stating concrete runs ([] when
the file is absent or not an array). -/
def seqAt (s : Store) (path : String) : List Json :=
  match s.files path with
  | some f =>
      match f.doc with
      | .arr rs => rs
      | _ => []
  | none => []

/-- A store with no files at all (empty remote storage). -/
def emptyStore : Store := ⟨fun _ => none, 0, []⟩

/-- The input record of the spec scenario in claim C6. -/
def rotiInput : Json :=
  .obj [("name", .str "Roti"), ("categoryId", .num 1), ("price", .num 1000),
    ("stock", .num 5), ("discount", .num 0)]

/-- A demo product record for concrete witnesses. -/
def demoRec : Json := .obj [("id", .num 7), ("name", .str "Roti"), ("price", .num 1000)]

/-- A demo category record for concrete witnesses. -/
def demoCat : Json := .obj [("id", .num 3), ("name", .str "Kue")]

/-- A concrete store holding all five live documents, for witnesses. -/
def demoStore : Store :=
  { files := fun p =>
      if p = productsPath then some ⟨1, .arr [demoRec]⟩
      else if p = categoriesPath then some ⟨2, .arr [demoCat]⟩
      else if p = ordersPath then some ⟨3, .arr []⟩
      else if p = contactsPath then some ⟨4, .arr []⟩
      else if p = websitePath then some ⟨5, defaultWebsite⟩
      else none
    nextSha := 10
    writes := [] }

/-! Basic run lemmas for the monad. -/

theorem mbind_ok {α β : Type} {x : M α} {s s1 : Store} {a : α}
    (h : x s = (.ok a, s1)) {f : α → M β} : mbind x f s = f a s1 := by
  simp [mbind, h]

theorem mbind_err {α β : Type} {x : M α} {s s1 : Store} {e : Err}
    (h : x s = (.error e, s1)) {f : α → M β} : mbind x f s = (.error e, s1) := by
  simp [mbind, h]

theorem mtry_ok {α : Type} {x : M α} {s s1 : Store} {a : α}
    (h : x s = (.ok a, s1)) {hdl : Err → M α} : mtry x hdl s = (.ok a, s1) := by
  simp [mtry, h]

theorem mtry_err {α : Type} {x : M α} {s s1 : Store} {e : Err}
    (h : x s = (.error e, s1)) {hdl : Err → M α} : mtry x hdl s = hdl e s1 := by
  simp [mtry, h]

theorem mret_run {α : Type} (a : α) (s : Store) : mret a s = (.ok a, s) := rfl

theorem mbind_mret {α β : Type} (a : α) (f : α → M β) (s : Store) :
    mbind (mret a) f s = f a s := rfl

theorem mthrow_run {α : Type} (e : Err) (s : Store) :
    (mthrow e : M α) s = (.error e, s) := rfl

/-! Substring lemmas: the "404" test is monotone under extending the
searched string on the right, and the message built for an HTTP 404
always contains "404". -/

theorem hasPfx_append {n l r : List Char} (h : hasPfx n l = true) :
    hasPfx n (l ++ r) = true := by
  induction n generalizing l with
  | nil => simp [hasPfx]
  | cons a as ih =>
    cases l with
    | nil => simp [hasPfx] at h
    | cons b bs =>
      simp only [hasPfx, Bool.and_eq_true] at h
      simp only [List.cons_append, hasPfx, Bool.and_eq_true]
      exact ⟨h.1, ih h.2⟩

theorem hasSub_nil (l : List Char) : hasSub [] l = true := by
  cases l <;> simp [hasSub, hasPfx]

theorem hasSub_append {n l r : List Char} (h : hasSub n l = true) :
    hasSub n (l ++ r) = true := by
  induction l with
  | nil =>
    cases n with
    | nil => exact hasSub_nil r
    | cons c cs => simp [hasSub, hasPfx] at h
  | cons c cs ih =>
    simp only [hasSub, Bool.or_eq_true] at h
    simp only [List.cons_append, hasSub, Bool.or_eq_true]
    cases h with
    | inl h => exact Or.inl (hasPfx_append h)
    | inr h => exact Or.inr (ih h)

theorem contains404_of_status404 (m : String) :
    contains404 (apiErrMsg 404 m) = true := by
  have h : apiErrMsg 404 m = "GitHub API Error: 404 - " ++ m := rfl
  rw [h]
  show hasSub ['4', '0', '4'] ("GitHub API Error: 404 - " ++ m).data = true
  have hd : ("GitHub API Error: 404 - " ++ m).data =
      ("GitHub API Error: 404 - ").data ++ m.data := rfl
  rw [hd]
  exact hasSub_append (by rfl)

/-! Run lemmas for the request primitives and for `getFile` /
`saveFile` against the live store. -/

theorem reqGet_found {s : Store} {p : String} {f : File} (h : s.files p = some f) :
    reqGet p s = (.ok ⟨f.doc, f.sha⟩, s) := by
  simp [reqGet, h]

theorem reqGet_missing {s : Store} {p : String} (h : s.files p = none) :
    reqGet p s = (.error ⟨apiErrMsg 404 "Not Found"⟩, s) := by
  simp [reqGet, h]

theorem putStore_files_self (s : Store) (p : String) (d : Json) (mth : Method)
    (sh : Option Nat) (msg : String) :
    (putStore s p d mth sh msg).files p = some ⟨s.nextSha, d⟩ := by
  simp [putStore]

theorem putStore_files_ne {q p : String} (hne : q ≠ p) (s : Store) (d : Json)
    (mth : Method) (sh : Option Nat) (msg : String) :
    (putStore s p d mth sh msg).files q = s.files q := by
  simp [putStore, hne]

theorem putStore_writes (s : Store) (p : String) (d : Json) (mth : Method)
    (sh : Option Nat) (msg : String) :
    (putStore s p d mth sh msg).writes = s.writes ++ [⟨p, mth, d, sh, msg⟩] := rfl

theorem putStore_nextSha (s : Store) (p : String) (d : Json) (mth : Method)
    (sh : Option Nat) (msg : String) :
    (putStore s p d mth sh msg).nextSha = s.nextSha + 1 := rfl

theorem getFile_found {s : Store} {p : String} {f : File} (h : s.files p = some f) :
    getFile p s = (.ok f.doc, s) := by
  unfold getFile
  have hb : mbind (reqGet p) (fun r => mret r.content) s = (.ok f.doc, s) := by
    rw [mbind_ok (reqGet_found h)]
    rfl
  exact mtry_ok hb

theorem getFile_missing {s : Store} {p : String} (h : s.files p = none) :
    getFile p s = (.ok (getDefaultData p), s) := by
  unfold getFile
  rw [mtry_err (mbind_err (reqGet_missing h))]
  rfl

theorem saveFile_found {s : Store} {p : String} {f : File} (h : s.files p = some f)
    {d : Json} {msg : String} :
    saveFile p d msg s = (.ok writeOkResp, putStore s p d .put (some f.sha) msg) := by
  unfold saveFile
  have hb : mbind (reqGet p) (fun ex => reqWrite p .put d (some ex.sha) msg) s =
      (.ok writeOkResp, putStore s p d .put (some f.sha) msg) := by
    rw [mbind_ok (reqGet_found h)]
    rfl
  exact mtry_ok hb

theorem saveFile_missing {s : Store} {p : String} (h : s.files p = none)
    {d : Json} {msg : String} :
    saveFile p d msg s = (.ok writeOkResp, putStore s p d .post none msg) := by
  unfold saveFile
  rw [mtry_err (mbind_err (reqGet_missing h))]
  rfl

theorem getPropM_obj {j : Json} (h : isObjJ j = true) (k : String) (s : Store) :
    getPropM j k s = (.ok (propOf j k), s) := by
  cases j <;> first
  | rfl
  | simp [isObjJ] at h

/-! Object-literal lemmas: what a key looks up to after spread-merge. -/

theorem lookupField_append (fs gs : List (String × Json)) (k : String) :
    lookupField (fs ++ gs) k =
      match lookupField fs k with
      | some v => some v
      | none => lookupField gs k := by
  induction fs with
  | nil => simp [lookupField]
  | cons kv rest ih =>
    by_cases hk : kv.1 = k
    · simp [lookupField, hk]
    · simp [lookupField, hk, ih]

theorem hasKey_eq_isSome (fs : List (String × Json)) (k : String) :
    hasKey fs k = (lookupField fs k).isSome := by
  induction fs with
  | nil => simp [hasKey, lookupField]
  | cons kv rest ih =>
    by_cases hk : kv.1 = k
    · simp [hasKey, lookupField, hk]
    · simp [hasKey, lookupField, hk, ih]

theorem lookup_map_overwrite (fs : List (String × Json)) (k : String) (v : Json) :
    lookupField (fs.map (fun kv => (kv.1, if kv.1 = k then v else kv.2))) k =
      if hasKey fs k then some v else none := by
  induction fs with
  | nil => simp [lookupField, hasKey]
  | cons kv rest ih =>
    obtain ⟨k1, v1⟩ := kv
    simp only [List.map_cons]
    by_cases hk : k1 = k
    · subst hk
      simp [lookupField, hasKey, ih]
    · simp [lookupField, hasKey, hk, ih]

theorem lookup_map_overwrite_ne {k0 k : String} (hne : k0 ≠ k)
    (fs : List (String × Json)) (v : Json) :
    lookupField (fs.map (fun kv => (kv.1, if kv.1 = k0 then v else kv.2))) k =
      lookupField fs k := by
  induction fs with
  | nil => simp [lookupField]
  | cons kv rest ih =>
    obtain ⟨k1, v1⟩ := kv
    simp only [List.map_cons]
    by_cases hk : k1 = k
    · subst hk
      have hne2 := Ne.symm hne
      simp [lookupField, hne2, ih]
    · simp [lookupField, hk, ih]

theorem lookupField_insertProp_self (fs : List (String × Json)) (k : String) (v : Json) :
    lookupField (insertProp fs k v) k = some v := by
  unfold insertProp
  by_cases h : hasKey fs k = true
  · simp [h, lookup_map_overwrite]
  · have h2 : lookupField fs k = none := by
      cases hlf : lookupField fs k with
      | some w => rw [hasKey_eq_isSome, hlf] at h; simp at h
      | none => rfl
    simp only [h, Bool.false_eq_true, if_false, lookupField_append, h2]
    simp [lookupField]

theorem lookupField_insertProp_ne {k0 k : String} (hne : k0 ≠ k)
    (fs : List (String × Json)) (v : Json) :
    lookupField (insertProp fs k0 v) k = lookupField fs k := by
  unfold insertProp
  by_cases h : hasKey fs k0 = true
  · simp [h, lookup_map_overwrite_ne hne]
  · simp only [h, Bool.false_eq_true, if_false, lookupField_append]
    have h1 : lookupField [(k0, v)] k = none := by simp [lookupField, hne]
    rw [h1]
    cases lookupField fs k <;> rfl

theorem lookup_foldl_ins (l : List (String × Json)) (acc : List (String × Json))
    (k : String) :
    lookupField (List.foldl (fun acc kv => insertProp acc kv.1 kv.2) acc l) k =
      match lookupLast l k with
      | some v => some v
      | none => lookupField acc k := by
  induction l generalizing acc with
  | nil => simp [lookupLast]
  | cons kv rest ih =>
    simp only [List.foldl_cons]
    rw [ih]
    cases hr : lookupLast rest k with
    | some v => simp [lookupLast, hr]
    | none =>
      by_cases hk : kv.1 = k
      · rw [← hk]
        simp [lookupLast, hr, hk, lookupField_insertProp_self]
      · simp [lookupLast, hr, hk, lookupField_insertProp_ne hk]

theorem lookup_objLit (l : List (String × Json)) (k : String) :
    lookupField (objLit l) k = lookupLast l k := by
  unfold objLit
  rw [lookup_foldl_ins]
  cases lookupLast l k <;> simp [lookupField]

theorem lookupLast_append (a b : List (String × Json)) (k : String) :
    lookupLast (a ++ b) k =
      match lookupLast b k with
      | some v => some v
      | none => lookupLast a k := by
  induction a with
  | nil => cases hb : lookupLast b k <;> simp [lookupLast, hb]
  | cons kv rest ih =>
    obtain ⟨k1, v1⟩ := kv
    simp only [List.cons_append, lookupLast, List.append_eq]
    rw [ih]
    cases hb : lookupLast b k with
    | some v => simp
    | none => cases hr : lookupLast rest k <;> simp [lookupLast, hr]

theorem lookupLast_none_of_no_key {fs : List (String × Json)} {k : String}
    (h : hasKey fs k = false) : lookupLast fs k = none := by
  induction fs with
  | nil => rfl
  | cons kv rest ih =>
    simp only [hasKey, Bool.or_eq_false_iff] at h
    have h1 : ¬(kv.1 = k) := by
      intro hc
      rw [hc] at h
      simp at h
    simp [lookupLast, ih h.2, h1]

theorem lookupLast_of_ukeys {fs : List (String × Json)} (h : ukeys fs = true)
    (k : String) : lookupLast fs k = lookupField fs k := by
  induction fs with
  | nil => rfl
  | cons kv rest ih =>
    simp only [ukeys, Bool.and_eq_true, Bool.not_eq_true'] at h
    by_cases hk : kv.1 = k
    · have hrest : hasKey rest k = false := by rw [← hk]; exact h.1
      simp [lookupLast, lookupField, hk, lookupLast_none_of_no_key hrest]
    · simp [lookupLast, lookupField, hk, ih h.2]
      cases hr : lookupField rest k <;> simp

/-! Lemmas about id freshness and uniqueness. -/

theorem beqComm {α : Type} [BEq α] [LawfulBEq α] (x y : α) : (x == y) = (y == x) := by
  by_cases h : x = y
  · subst h; rfl
  · rw [beq_eq_false_iff_ne.mpr h, beq_eq_false_iff_ne.mpr (Ne.symm h)]

theorem strictEq_comm (a b : Json) : strictEq a b = strictEq b a := by
  cases a <;> cases b <;> simp only [strictEq] <;> exact beqComm ..

theorem all_filter_sub {l : List Json} {q p : Json → Bool}
    (h : l.all q = true) : (l.filter p).all q = true := by
  induction l with
  | nil => simp
  | cons x xs ih =>
    simp only [List.all_cons, Bool.and_eq_true] at h
    simp only [List.filter_cons]
    by_cases hp : p x = true
    · simp [hp, List.all_cons, h.1, ih h.2]
    · simp [hp, ih h.2]

theorem all_set {l : List Json} {q : Json → Bool} {n : Nat} {a : Json}
    (h : l.all q = true) (ha : q a = true) : (l.set n a).all q = true := by
  induction l generalizing n with
  | nil => simp
  | cons x xs ih =>
    simp only [List.all_cons, Bool.and_eq_true] at h
    cases n with
    | zero => simp [List.set, List.all_cons, ha, h.2]
    | succ n => simp [List.set, List.all_cons, h.1, ih h.2]

theorem uniqueIds_filter {l : List Json} (h : uniqueIds l = true) (p : Json → Bool) :
    uniqueIds (l.filter p) = true := by
  induction l with
  | nil => simp [uniqueIds]
  | cons x xs ih =>
    simp only [uniqueIds, Bool.and_eq_true] at h
    simp only [List.filter_cons]
    by_cases hp : p x = true
    · simp only [hp, if_true, uniqueIds, Bool.and_eq_true]
      exact ⟨all_filter_sub h.1, ih h.2⟩
    · simp only [hp, Bool.false_eq_true, if_false]
      exact ih h.2

theorem uniqueIds_append_one {l : List Json} {r : Json}
    (h : uniqueIds l = true) (hf : idFresh (propOf r "id") l = true) :
    uniqueIds (l ++ [r]) = true := by
  induction l with
  | nil => simp [uniqueIds, idFresh]
  | cons x xs ih =>
    simp only [uniqueIds, Bool.and_eq_true] at h
    simp only [idFresh, List.all_cons, Bool.and_eq_true] at hf
    have hcomm : (!(strictEq (propOf r "id") (propOf x "id"))) = true := by
      rw [strictEq_comm]
      exact hf.1
    have h2 : idFresh (propOf x "id") (xs ++ [r]) = true := by
      unfold idFresh
      rw [List.all_append, Bool.and_eq_true]
      refine ⟨h.1, ?_⟩
      simp only [List.all_cons, List.all_nil, Bool.and_true]
      exact hcomm
    show (idFresh (propOf x "id") (xs ++ [r]) && uniqueIds (xs ++ [r])) = true
    rw [Bool.and_eq_true]
    exact ⟨h2, ih h.2 hf.2⟩

theorem uniqueIds_set {l : List Json} {t j : Json} {i : Nat}
    (h : uniqueIds l = true) (hidx : findIdxById l t = some i)
    (hf : idFresh (propOf j "id") (l.eraseIdx i) = true) :
    uniqueIds (l.set i j) = true := by
  induction l generalizing i with
  | nil => simp [findIdxById] at hidx
  | cons x xs ih =>
    simp only [uniqueIds, Bool.and_eq_true] at h
    by_cases hm : strictEq (propOf x "id") t = true
    · simp only [findIdxById, hm, if_true, Option.some.injEq] at hidx
      subst hidx
      simp only [List.eraseIdx_cons_zero] at hf
      simp only [List.set_cons_zero, uniqueIds, Bool.and_eq_true]
      exact ⟨hf, h.2⟩
    · simp only [findIdxById, hm, Bool.false_eq_true, if_false] at hidx
      cases hn : findIdxById xs t with
      | none => rw [hn] at hidx; simp at hidx
      | some n =>
        rw [hn] at hidx
        simp only [Option.map_some', Option.some.injEq] at hidx
        subst hidx
        simp only [List.eraseIdx_cons_succ, idFresh, List.all_cons,
          Bool.and_eq_true] at hf
        simp only [List.set_cons_succ, uniqueIds, Bool.and_eq_true]
        refine ⟨?_, ih h.2 hn hf.2⟩
        refine all_set h.1 ?_
        rw [strictEq_comm]
        exact hf.1

theorem eraseIdx_set (l : List Json) (i : Nat) (a : Json) :
    (l.set i a).eraseIdx i = l.eraseIdx i := by
  induction l generalizing i with
  | nil => simp
  | cons x xs ih =>
    cases i with
    | zero => simp
    | succ n => simp [ih]

theorem removeById_all (l : List Json) (t : Json) :
    (removeById l t).all (fun p => !(strictEq (propOf p "id") t)) = true := by
  unfold removeById
  induction l with
  | nil => simp
  | cons x xs ih =>
    simp only [List.filter_cons]
    by_cases hp : (!(strictEq (propOf x "id") t)) = true
    · simp [hp, List.all_cons, ih]
    · simp [hp, ih]

theorem removeById_of_fresh {l : List Json} {t : Json}
    (h : idFresh t l = true) : removeById l t = l := by
  unfold removeById
  induction l with
  | nil => rfl
  | cons x xs ih =>
    simp only [idFresh, List.all_cons, Bool.and_eq_true] at h
    simp only [List.filter_cons, h.1, if_true]
    have hrec := ih h.2
    unfold removeById at hrec
    rw [hrec]

theorem findIdxById_lt {l : List Json} {t : Json} {i : Nat}
    (h : findIdxById l t = some i) : i < l.length := by
  induction l generalizing i with
  | nil => simp [findIdxById] at h
  | cons x xs ih =>
    by_cases hm : strictEq (propOf x "id") t = true
    · simp only [findIdxById, hm, if_true, Option.some.injEq] at h
      subst h
      simp
    · simp only [findIdxById, hm, Bool.false_eq_true, if_false] at h
      cases hn : findIdxById xs t with
      | none => rw [hn] at h; simp at h
      | some n =>
        rw [hn] at h
        simp only [Option.map_some', Option.some.injEq] at h
        subst h
        exact Nat.succ_lt_succ (ih hn)

/-! Run lemmas for the entity operations against a store that holds the
relevant document as an array. -/

theorem getProducts_run {s : Store} {f : File} {products : List Json}
    (hf : s.files productsPath = some f) (hdoc : f.doc = .arr products) :
    getProducts s = (.ok (.arr products), s) := by
  unfold getProducts
  rw [getFile_found hf, hdoc]

theorem getCategories_run {s : Store} {f : File} {cats : List Json}
    (hf : s.files categoriesPath = some f) (hdoc : f.doc = .arr cats) :
    getCategories s = (.ok (.arr cats), s) := by
  unfold getCategories
  rw [getFile_found hf, hdoc]

theorem getOrders_run {s : Store} {f : File} {orders : List Json}
    (hf : s.files ordersPath = some f) (hdoc : f.doc = .arr orders) :
    getOrders s = (.ok (.arr orders), s) := by
  unfold getOrders
  rw [getFile_found hf, hdoc]

theorem getContacts_run {s : Store} {f : File} {contacts : List Json}
    (hf : s.files contactsPath = some f) (hdoc : f.doc = .arr contacts) :
    getContacts s = (.ok (.arr contacts), s) := by
  unfold getContacts
  rw [getFile_found hf, hdoc]

theorem addProduct_run {s : Store} {f : File} {products : List Json}
    (hf : s.files productsPath = some f) (hdoc : f.doc = .arr products)
    (now : Int) (pd : Json) :
    addProduct now pd s = (.ok (newRecord now pd),
      putStore s productsPath (.arr (products ++ [newRecord now pd])) .put
        (some f.sha) "Add new product") := by
  unfold addProduct
  simp only [mbind_ok (getProducts_run hf hdoc), asArrM, mbind_mret]
  simp only [mbind_ok (saveFile_found hf)]
  rfl

theorem addCategory_run {s : Store} {f : File} {cats : List Json}
    (hf : s.files categoriesPath = some f) (hdoc : f.doc = .arr cats)
    (now : Int) (cd : Json) :
    addCategory now cd s = (.ok (newRecord now cd),
      putStore s categoriesPath (.arr (cats ++ [newRecord now cd])) .put
        (some f.sha) "Add new category") := by
  unfold addCategory
  simp only [mbind_ok (getCategories_run hf hdoc), asArrM, mbind_mret]
  simp only [mbind_ok (saveFile_found hf)]
  rfl

theorem updateProduct_found_run {s : Store} {f : File} {products : List Json}
    {pid : Json} {i : Nat}
    (hf : s.files productsPath = some f) (hdoc : f.doc = .arr products)
    (hidx : findIdxById products pid = some i) (pd : Json) :
    updateProduct pid pd s = (.ok (mergedRecord (products.getD i .undefVal) pd),
      putStore s productsPath
        (.arr (products.set i (mergedRecord (products.getD i .undefVal) pd))) .put
        (some f.sha) ("Update product " ++ jstr pid)) := by
  unfold updateProduct
  simp only [mbind_ok (getProducts_run hf hdoc), asArrM, mbind_mret]
  rw [hidx]
  simp only [mbind_ok (saveFile_found hf)]
  rfl

theorem updateProduct_missing_run {s : Store} {f : File} {products : List Json}
    {pid : Json}
    (hf : s.files productsPath = some f) (hdoc : f.doc = .arr products)
    (hidx : findIdxById products pid = none) (pd : Json) :
    updateProduct pid pd s = (.error ⟨"Product not found"⟩, s) := by
  unfold updateProduct
  simp only [mbind_ok (getProducts_run hf hdoc), asArrM, mbind_mret]
  rw [hidx]
  rfl

theorem updateCategory_found_run {s : Store} {f : File} {cats : List Json}
    {cid : Json} {i : Nat}
    (hf : s.files categoriesPath = some f) (hdoc : f.doc = .arr cats)
    (hidx : findIdxById cats cid = some i) (cd : Json) :
    updateCategory cid cd s = (.ok (mergedRecord (cats.getD i .undefVal) cd),
      putStore s categoriesPath
        (.arr (cats.set i (mergedRecord (cats.getD i .undefVal) cd))) .put
        (some f.sha) ("Update category " ++ jstr cid)) := by
  unfold updateCategory
  simp only [mbind_ok (getCategories_run hf hdoc), asArrM, mbind_mret]
  rw [hidx]
  simp only [mbind_ok (saveFile_found hf)]
  rfl

theorem updateCategory_missing_run {s : Store} {f : File} {cats : List Json}
    {cid : Json}
    (hf : s.files categoriesPath = some f) (hdoc : f.doc = .arr cats)
    (hidx : findIdxById cats cid = none) (cd : Json) :
    updateCategory cid cd s = (.error ⟨"Category not found"⟩, s) := by
  unfold updateCategory
  simp only [mbind_ok (getCategories_run hf hdoc), asArrM, mbind_mret]
  rw [hidx]
  rfl

theorem deleteProduct_run {s : Store} {f : File} {products : List Json}
    (hf : s.files productsPath = some f) (hdoc : f.doc = .arr products)
    (pid : Json) :
    deleteProduct pid s = (.ok (.bool true),
      putStore s productsPath (.arr (removeById products pid)) .put
        (some f.sha) ("Delete product " ++ jstr pid)) := by
  unfold deleteProduct
  simp only [mbind_ok (getProducts_run hf hdoc), asArrM, mbind_mret]
  simp only [mbind_ok (saveFile_found hf)]
  rfl

theorem deleteCategory_run {s : Store} {f : File} {cats : List Json}
    (hf : s.files categoriesPath = some f) (hdoc : f.doc = .arr cats)
    (cid : Json) :
    deleteCategory cid s = (.ok (.bool true),
      putStore s categoriesPath (.arr (removeById cats cid)) .put
        (some f.sha) ("Delete category " ++ jstr cid)) := by
  unfold deleteCategory
  simp only [mbind_ok (getCategories_run hf hdoc), asArrM, mbind_mret]
  simp only [mbind_ok (saveFile_found hf)]
  rfl

theorem deleteContact_run {s : Store} {f : File} {contacts : List Json}
    (hf : s.files contactsPath = some f) (hdoc : f.doc = .arr contacts)
    (cid : Json) :
    deleteContact cid s = (.ok (.bool true),
      putStore s contactsPath (.arr (removeById contacts cid)) .put
        (some f.sha) ("Delete contact " ++ jstr cid)) := by
  unfold deleteContact
  simp only [mbind_ok (getContacts_run hf hdoc), asArrM, mbind_mret]
  simp only [mbind_ok (saveFile_found hf)]
  rfl

theorem saveOrder_run {s : Store} {f : File} {orders : List Json}
    (hf : s.files ordersPath = some f) (hdoc : f.doc = .arr orders)
    {orderData : Json} (hobj : isObjJ orderData = true) :
    saveOrder orderData s = (.ok orderData,
      putStore s ordersPath (.arr (orders ++ [orderData])) .put
        (some f.sha) ("Save order " ++ jstr (propOf orderData "id"))) := by
  unfold saveOrder
  simp only [mbind_ok (getOrders_run hf hdoc), asArrM, mbind_mret]
  simp only [mbind_ok (getPropM_obj hobj "id" s)]
  simp only [mbind_ok (saveFile_found hf)]
  rfl

theorem saveContact_run {s : Store} {f : File} {contacts : List Json}
    (hf : s.files contactsPath = some f) (hdoc : f.doc = .arr contacts)
    {contactData : Json} (hobj : isObjJ contactData = true) :
    saveContact contactData s = (.ok contactData,
      putStore s contactsPath (.arr (contacts ++ [contactData])) .put
        (some f.sha) ("Save contact " ++ jstr (propOf contactData "id"))) := by
  unfold saveContact
  simp only [mbind_ok (getContacts_run hf hdoc), asArrM, mbind_mret]
  simp only [mbind_ok (getPropM_obj hobj "id" s)]
  simp only [mbind_ok (saveFile_found hf)]
  rfl

/-! Claim theorems. -/

/-- Claim C1, counterexample: the claim states that when the initial GET
fails with any non-404 error, the error propagates and no write is
attempted.  But the source tests the error MESSAGE for the substring
"404", not the status: a 500 response whose server message happens to
contain "404" makes saveFile issue a POST write instead of propagating. -/
theorem saveFileWrite_status500_writes :
    saveFileWrite (.failure 500 "Reference 404") "msg" .null =
      .ok (.postReq "msg" .null) ∧ (500 : Nat) ≠ 404 :=
  ⟨rfl, by decide⟩

/-- Claim C1 (amended): for every path, value and message, saveFile first
GETs the existing document; if that read succeeds it issues exactly one
PUT whose body is the message, content and the fetched concurrency
token; if the read fails with an error whose message contains the
substring "404" (which is always the case for status 404) it issues
exactly one POST with no token; and if the read fails with an error
whose message does not contain "404" the error propagates and no write
is attempted.  The status itself is never inspected: only the message
text is. -/
theorem saveFileWrite_branches (c : Json) (sha : Nat) (commitMsg : String)
    (d : Json) (m3 : String) (st : Nat) (m : String) (st2 : Nat) (m2 : String)
    (h404 : contains404 (apiErrMsg st m) = true)
    (hno : contains404 (apiErrMsg st2 m2) = false) :
    saveFileWrite (.success c sha) commitMsg d = .ok (.putReq commitMsg d sha) ∧
    saveFileWrite (.failure 404 m3) commitMsg d = .ok (.postReq commitMsg d) ∧
    saveFileWrite (.failure st m) commitMsg d = .ok (.postReq commitMsg d) ∧
    saveFileWrite (.failure st2 m2) commitMsg d = .error ⟨apiErrMsg st2 m2⟩ ∧
    st2 ≠ 404 := by
  refine ⟨rfl, ?_, ?_, ?_, ?_⟩
  · simp [saveFileWrite, contains404_of_status404]
  · simp [saveFileWrite, h404]
  · simp [saveFileWrite, hno]
  · intro hc
    subst hc
    rw [contains404_of_status404] at hno
    simp at hno

theorem saveFileWrite_branches_witness :
    contains404 (apiErrMsg 500 "Internal 404 hiccup") = true ∧
    contains404 (apiErrMsg 500 "boom") = false ∧
    saveFileWrite (.failure 404 "Not Found") "Update data/products.json" (.arr []) =
      .ok (.postReq "Update data/products.json" (.arr [])) :=
  ⟨by decide, by decide,
    (saveFileWrite_branches .null 0 "Update data/products.json" (.arr [])
      "Not Found" 500 "Internal 404 hiccup" 500 "boom"
      (by decide) (by decide)).2.1⟩

/-- Claim C2, counterexample: the claim states that a failure is
swallowed if and only if its status is 404.  But getFile tests the error
message for the substring "404": a 500 response whose server message
contains "404" is also swallowed and answered with the default
document. -/
theorem getFileResult_status500_swallowed :
    getFileResult ordersPath (.failure 500 "Reference 404") = .ok (.arr []) ∧
    (500 : Nat) ≠ 404 :=
  ⟨rfl, by decide⟩

/-- Claim C2 (amended): getFile returns the decoded content on success;
a failure whose thrown message contains the substring "404" (always the
case for status 404, whose message starts "GitHub API Error: 404 - ")
is answered with the path-specific built-in default document; a failure
whose message does not contain "404" propagates unchanged.  The
swallow test is on the message text, not on the status code. -/
theorem getFileResult_branches (path : String) (c : Json) (sha : Nat)
    (m3 : String) (st : Nat) (m : String) (st2 : Nat) (m2 : String)
    (h404 : contains404 (apiErrMsg st m) = true)
    (hno : contains404 (apiErrMsg st2 m2) = false) :
    getFileResult path (.success c sha) = .ok c ∧
    getFileResult path (.failure 404 m3) = .ok (getDefaultData path) ∧
    getFileResult path (.failure st m) = .ok (getDefaultData path) ∧
    getFileResult path (.failure st2 m2) = .error ⟨apiErrMsg st2 m2⟩ ∧
    st2 ≠ 404 := by
  refine ⟨rfl, ?_, ?_, ?_, ?_⟩
  · simp [getFileResult, contains404_of_status404]
  · simp [getFileResult, h404]
  · simp [getFileResult, hno]
  · intro hc
    subst hc
    rw [contains404_of_status404] at hno
    simp at hno

theorem getFileResult_branches_witness :
    contains404 (apiErrMsg 500 "Internal 404 hiccup") = true ∧
    contains404 (apiErrMsg 502 "gateway down") = false ∧
    getFileResult websitePath (.failure 404 "Not Found") = .ok defaultWebsite :=
  ⟨by decide, by decide,
    (getFileResult_branches websitePath .null 0 "Not Found"
      500 "Internal 404 hiccup" 502 "gateway down"
      (by decide) (by decide)).2.1⟩

/-- Claim C6, counterexample: the claim states that given empty remote
storage, after addProduct a subsequent getProducts returns a one-element
list.  But on empty storage the 404 fallback supplies the five built-in
demo products, so the stored and re-read sequence has six elements. -/
theorem addProduct_emptyStore_sixElems :
    (seqAt (addProduct 1700000000000 rotiInput emptyStore).2 productsPath).length = 6 ∧
    (6 : Nat) ≠ 1 :=
  ⟨rfl, by decide⟩

/-- Claim C6 (amended): given empty remote storage,
addProduct({name:"Roti", categoryId:1, price:1000, stock:5, discount:0})
returns a record whose id is the numeric Date.now() value, and a
subsequent getProducts() returns a six-element list: the five built-in
default products followed by exactly that record. -/
theorem addProduct_emptyStore_run (now : Int) :
    (addProduct now rotiInput emptyStore).1 = .ok (newRecord now rotiInput) ∧
    propOf (newRecord now rotiInput) "id" = .num now ∧
    (getProducts (addProduct now rotiInput emptyStore).2).1 =
      .ok (.arr (defaultProducts ++ [newRecord now rotiInput])) ∧
    (defaultProducts ++ [newRecord now rotiInput]).length = 6 :=
  ⟨rfl, rfl, rfl, rfl⟩

/-- Claim C10: for every path other than the five known data paths (in
particular every backups path), the default-data switch falls through to
null, so getFile answers a 404 with null rather than an error or a
default document; consequently restoreData on a never-written backup
path gets past its read with a null snapshot (no RemoteError) and then
fails on the property access `backup.products`, whose TypeError is
rewrapped by restoreData itself. -/
theorem getFile_unknownPath_null (path : String) (s : Store)
    (h1 : path ≠ productsPath) (h2 : path ≠ categoriesPath)
    (h3 : path ≠ ordersPath) (h4 : path ≠ contactsPath)
    (h5 : path ≠ websitePath) (hs : s.files path = none) :
    getDefaultData path = .null ∧
    getFile path s = (.ok .null, s) ∧
    restoreData path s =
      (.error ⟨"Failed to restore backup: TypeError: Cannot read properties of null"⟩,
        s) := by
  have hd : getDefaultData path = .null := by
    simp [getDefaultData, h1, h2, h3, h4, h5]
  have hg : getFile path s = (.ok Json.null, s) := by
    have hm := getFile_missing hs
    rw [hd] at hm
    exact hm
  refine ⟨hd, hg, ?_⟩
  unfold restoreData
  have hb : restoreBody path s =
      (.error ⟨"TypeError: Cannot read properties of null"⟩, s) := by
    unfold restoreBody
    rw [mbind_ok hg]
    rw [mbind_err (show getPropM Json.null "products" s =
      (.error ⟨"TypeError: Cannot read properties of null"⟩, s) from rfl)]
  rw [mtry_err hb]
  rfl

theorem getFile_unknownPath_null_witness :
    ("backups/backup-1.json" ≠ productsPath) ∧
    emptyStore.files "backups/backup-1.json" = none ∧
    getFile "backups/backup-1.json" emptyStore = (.ok .null, emptyStore) :=
  ⟨by decide, rfl,
    (getFile_unknownPath_null "backups/backup-1.json" emptyStore
      (by decide) (by decide) (by decide) (by decide) (by decide) rfl).2.1⟩

/-- Claim C9: in addProduct and addCategory the input object is spread
after the generated id in the object literal, so whenever the input
itself carries an id field, the stored and returned record carries the
caller-supplied id, not the time-derived Date.now() value. -/
theorem addRecord_callerId_wins (s : Store) (f g : File)
    (products cats : List Json) (now : Int)
    (pdf cdf : List (String × Json)) (v w : Json)
    (hf : s.files productsPath = some f) (hdoc : f.doc = .arr products)
    (hg : s.files categoriesPath = some g) (hgdoc : g.doc = .arr cats)
    (hpd : lookupField pdf "id" = some v) (hu : ukeys pdf = true)
    (hcd : lookupField cdf "id" = some w) (hu2 : ukeys cdf = true)
    (hvne : v ≠ .num now) :
    (addProduct now (.obj pdf) s).1 = .ok (newRecord now (.obj pdf)) ∧
    (addProduct now (.obj pdf) s).2.files productsPath =
      some ⟨s.nextSha, .arr (products ++ [newRecord now (.obj pdf)])⟩ ∧
    propOf (newRecord now (.obj pdf)) "id" = v ∧
    propOf (newRecord now (.obj pdf)) "id" ≠ .num now ∧
    (addCategory now (.obj cdf) s).1 = .ok (newRecord now (.obj cdf)) ∧
    (addCategory now (.obj cdf) s).2.files categoriesPath =
      some ⟨s.nextSha, .arr (cats ++ [newRecord now (.obj cdf)])⟩ ∧
    propOf (newRecord now (.obj cdf)) "id" = w := by
  have hkey : ∀ (fs : List (String × Json)) (u : Json), ukeys fs = true →
      lookupField fs "id" = some u →
      propOf (newRecord now (.obj fs)) "id" = u := by
    intro fs u hufs hlook
    show (lookupField (objLit (("id", Json.num now) :: fs)) "id").getD .undefVal = u
    rw [lookup_objLit]
    show (match lookupLast fs "id" with
      | some x => some x
      | none => if "id" = "id" then some (Json.num now) else none).getD .undefVal = u
    rw [lookupLast_of_ukeys hufs, hlook]
    rfl
  have hid : propOf (newRecord now (.obj pdf)) "id" = v := hkey pdf v hu hpd
  refine ⟨?_, ?_, hid, ?_, ?_, ?_, hkey cdf w hu2 hcd⟩
  · rw [addProduct_run hf hdoc now (.obj pdf)]
  · rw [addProduct_run hf hdoc now (.obj pdf)]
    exact putStore_files_self ..
  · rw [hid]
    exact hvne
  · rw [addCategory_run hg hgdoc now (.obj cdf)]
  · rw [addCategory_run hg hgdoc now (.obj cdf)]
    exact putStore_files_self ..

theorem addRecord_callerId_wins_witness :
    demoStore.files productsPath = some ⟨1, .arr [demoRec]⟩ ∧
    lookupField [(("id" : String), Json.num 42)] "id" = some (.num 42) ∧
    propOf (newRecord 1700000000000 (.obj [("id", .num 42)])) "id" = .num 42 :=
  ⟨rfl, rfl,
    (addRecord_callerId_wins demoStore ⟨1, .arr [demoRec]⟩ ⟨2, .arr [demoCat]⟩
      [demoRec] [demoCat] 1700000000000
      [("id", .num 42)] [("id", .num 43)] (.num 42) (.num 43)
      rfl rfl rfl rfl rfl rfl rfl rfl (by simp)).2.2.1⟩

/-- Claim C3: for a sequence document and an id present in it,
update(id, patch) writes back the sequence with the matching record
replaced by the shallow merge of the old record and the patch - patch
fields overlaid, untouched fields preserved, all other records
unchanged - and returns the merged record; on an absent id it fails
with the not-found error and performs no write (the store, and in
particular its write trace, is exactly as before).  Shown for
updateProduct and updateCategory. -/
theorem update_merges_or_notFound (s : Store) (f g : File)
    (products cats : List Json) (pid pid2 cid cid2 patch cpatch : Json)
    (oldf pf : List (String × Json)) (i j : Nat)
    (hf : s.files productsPath = some f) (hdoc : f.doc = .arr products)
    (_hobjs : allObjs products = true)
    (hidx : findIdxById products pid = some i)
    (habs : findIdxById products pid2 = none)
    (hold : products.getD i .undefVal = .obj oldf) (huold : ukeys oldf = true)
    (hpatch : patch = .obj pf) (hupf : ukeys pf = true)
    (hg : s.files categoriesPath = some g) (hgdoc : g.doc = .arr cats)
    (hcidx : findIdxById cats cid = some j)
    (hcabs : findIdxById cats cid2 = none) :
    (updateProduct pid patch s).1 =
      .ok (mergedRecord (products.getD i .undefVal) patch) ∧
    (updateProduct pid patch s).2.files productsPath =
      some ⟨s.nextSha,
        .arr (products.set i (mergedRecord (products.getD i .undefVal) patch))⟩ ∧
    (updateProduct pid patch s).2.writes = s.writes ++
      [⟨productsPath, .put,
        .arr (products.set i (mergedRecord (products.getD i .undefVal) patch)),
        some f.sha, "Update product " ++ jstr pid⟩] ∧
    (getProducts (updateProduct pid patch s).2).1 =
      .ok (.arr (products.set i (mergedRecord (products.getD i .undefVal) patch))) ∧
    (products.set i (mergedRecord (products.getD i .undefVal) patch)).eraseIdx i =
      products.eraseIdx i ∧
    (∀ k x, lookupField pf k = some x →
      propOf (mergedRecord (products.getD i .undefVal) patch) k = x) ∧
    (∀ k, hasKey pf k = false →
      propOf (mergedRecord (products.getD i .undefVal) patch) k =
        propOf (products.getD i .undefVal) k) ∧
    updateProduct pid2 patch s = (.error ⟨"Product not found"⟩, s) ∧
    (updateCategory cid cpatch s).1 =
      .ok (mergedRecord (cats.getD j .undefVal) cpatch) ∧
    (updateCategory cid cpatch s).2.files categoriesPath =
      some ⟨s.nextSha,
        .arr (cats.set j (mergedRecord (cats.getD j .undefVal) cpatch))⟩ ∧
    updateCategory cid2 cpatch s = (.error ⟨"Category not found"⟩, s) := by
  have hrun := updateProduct_found_run hf hdoc hidx patch
  have hcrun := updateCategory_found_run hg hgdoc hcidx cpatch
  refine ⟨?_, ?_, ?_, ?_, eraseIdx_set .., ?_, ?_, ?_, ?_, ?_, ?_⟩
  · rw [hrun]
  · rw [hrun]
    exact putStore_files_self ..
  · rw [hrun]
    exact putStore_writes ..
  · rw [hrun]
    rw [getProducts_run (putStore_files_self ..) rfl]
  · intro k x hlk
    rw [hold, hpatch]
    show (lookupField (objLit (oldf ++ pf)) k).getD .undefVal = x
    rw [lookup_objLit, lookupLast_append, lookupLast_of_ukeys hupf, hlk]
    rfl
  · intro k hnk
    rw [hold, hpatch]
    show (lookupField (objLit (oldf ++ pf)) k).getD .undefVal =
      (lookupField oldf k).getD .undefVal
    rw [lookup_objLit, lookupLast_append, lookupLast_none_of_no_key hnk]
    show (lookupLast oldf k).getD .undefVal = (lookupField oldf k).getD .undefVal
    rw [lookupLast_of_ukeys huold]
  · exact updateProduct_missing_run hf hdoc habs patch
  · rw [hcrun]
  · rw [hcrun]
    exact putStore_files_self ..
  · exact updateCategory_missing_run hg hgdoc hcabs cpatch

theorem update_merges_or_notFound_witness :
    demoStore.files productsPath = some ⟨1, .arr [demoRec]⟩ ∧
    findIdxById [demoRec] (.num 7) = some 0 ∧
    findIdxById [demoRec] (.num 99) = none ∧
    [demoRec].getD 0 .undefVal =
      .obj [("id", .num 7), ("name", .str "Roti"), ("price", .num 1000)] ∧
    (updateProduct (.num 7) (.obj [("price", .num 2000)]) demoStore).1 =
      .ok (mergedRecord ([demoRec].getD 0 .undefVal) (.obj [("price", .num 2000)])) :=
  ⟨rfl, rfl, rfl, rfl,
    (update_merges_or_notFound demoStore ⟨1, .arr [demoRec]⟩ ⟨2, .arr [demoCat]⟩
      [demoRec] [demoCat] (.num 7) (.num 99) (.num 3) (.num 99)
      (.obj [("price", .num 2000)]) (.obj [("name", .str "Tart")])
      [("id", .num 7), ("name", .str "Roti"), ("price", .num 1000)]
      [("price", .num 2000)] 0 0
      rfl rfl rfl rfl rfl rfl rfl rfl rfl rfl rfl rfl rfl).1⟩

/-- Claim C7: for a sequence document, add followed by a read returns a
sequence with exactly one more record than before, the records present
before the add unchanged (they form the prefix), and the new record
carrying the input fields (plus the generated id when the input has
none).  Shown for addProduct and addCategory. -/
theorem add_appends_record (s : Store) (f g : File) (products cats : List Json)
    (now now2 : Int) (pdf cdf : List (String × Json))
    (hf : s.files productsPath = some f) (hdoc : f.doc = .arr products)
    (hg : s.files categoriesPath = some g) (hgdoc : g.doc = .arr cats)
    (hupdf : ukeys pdf = true) (_hucdf : ukeys cdf = true) :
    (addProduct now (.obj pdf) s).1 = .ok (newRecord now (.obj pdf)) ∧
    (addProduct now (.obj pdf) s).2.files productsPath =
      some ⟨s.nextSha, .arr (products ++ [newRecord now (.obj pdf)])⟩ ∧
    (getProducts (addProduct now (.obj pdf) s).2).1 =
      .ok (.arr (products ++ [newRecord now (.obj pdf)])) ∧
    (products ++ [newRecord now (.obj pdf)]).length = products.length + 1 ∧
    (products ++ [newRecord now (.obj pdf)]).take products.length = products ∧
    (∀ k x, lookupField pdf k = some x →
      propOf (newRecord now (.obj pdf)) k = x) ∧
    (hasKey pdf "id" = false → propOf (newRecord now (.obj pdf)) "id" = .num now) ∧
    (addCategory now2 (.obj cdf) s).1 = .ok (newRecord now2 (.obj cdf)) ∧
    (addCategory now2 (.obj cdf) s).2.files categoriesPath =
      some ⟨s.nextSha, .arr (cats ++ [newRecord now2 (.obj cdf)])⟩ ∧
    (getCategories (addCategory now2 (.obj cdf) s).2).1 =
      .ok (.arr (cats ++ [newRecord now2 (.obj cdf)])) := by
  have hrun := addProduct_run hf hdoc now (.obj pdf)
  have hcrun := addCategory_run hg hgdoc now2 (.obj cdf)
  refine ⟨?_, ?_, ?_, by simp, List.take_left .., ?_, ?_, ?_, ?_, ?_⟩
  · rw [hrun]
  · rw [hrun]
    exact putStore_files_self ..
  · rw [hrun]
    rw [getProducts_run (putStore_files_self ..) rfl]
  · intro k x hlk
    show (lookupField (objLit (("id", Json.num now) :: pdf)) k).getD .undefVal = x
    rw [lookup_objLit]
    show (match lookupLast pdf k with
      | some y => some y
      | none => if "id" = k then some (Json.num now) else none).getD .undefVal = x
    rw [lookupLast_of_ukeys hupdf, hlk]
    rfl
  · intro hnk
    show (lookupField (objLit (("id", Json.num now) :: pdf)) "id").getD .undefVal =
      .num now
    rw [lookup_objLit]
    show (match lookupLast pdf "id" with
      | some y => some y
      | none => if "id" = "id" then some (Json.num now) else none).getD .undefVal =
      .num now
    rw [lookupLast_none_of_no_key hnk]
    rfl
  · rw [hcrun]
  · rw [hcrun]
    exact putStore_files_self ..
  · rw [hcrun]
    rw [getCategories_run (putStore_files_self ..) rfl]

theorem add_appends_record_witness :
    demoStore.files productsPath = some ⟨1, .arr [demoRec]⟩ ∧
    ukeys [(("name" : String), Json.str "Donat")] = true ∧
    (addProduct 99 (.obj [("name", .str "Donat")]) demoStore).1 =
      .ok (newRecord 99 (.obj [("name", .str "Donat")])) :=
  ⟨rfl, rfl,
    (add_appends_record demoStore ⟨1, .arr [demoRec]⟩ ⟨2, .arr [demoCat]⟩
      [demoRec] [demoCat] 99 100
      [("name", .str "Donat")] [("name", .str "Tart")]
      rfl rfl rfl rfl rfl rfl).1⟩

/-- Claim C8: delete(id) writes back the sequence filtered of every
record whose id strictly equals the target, so a subsequent read
returns a sequence with that id absent; when no record matches, the
written sequence equals the original one unchanged, and a write is
still performed (the write trace grows by one PUT of the unchanged
sequence).  Shown for deleteProduct, deleteCategory and
deleteContact. -/
theorem delete_removes_id (s : Store) (f g h3 : File)
    (products contacts cats : List Json) (pid pid2 cid cid2 : Json)
    (hf : s.files productsPath = some f) (hdoc : f.doc = .arr products)
    (_hobjs : allObjs products = true)
    (hcf : s.files contactsPath = some g) (hcdoc : g.doc = .arr contacts)
    (hcat : s.files categoriesPath = some h3) (hcatdoc : h3.doc = .arr cats)
    (habsent : idFresh pid2 products = true) :
    (deleteProduct pid s).1 = .ok (.bool true) ∧
    (deleteProduct pid s).2.files productsPath =
      some ⟨s.nextSha, .arr (removeById products pid)⟩ ∧
    (getProducts (deleteProduct pid s).2).1 =
      .ok (.arr (removeById products pid)) ∧
    (removeById products pid).all
      (fun p => !(strictEq (propOf p "id") pid)) = true ∧
    removeById products pid2 = products ∧
    deleteProduct pid2 s = (.ok (.bool true),
      putStore s productsPath (.arr products) .put (some f.sha)
        ("Delete product " ++ jstr pid2)) ∧
    (deleteProduct pid2 s).2.writes = s.writes ++
      [⟨productsPath, .put, .arr products, some f.sha,
        "Delete product " ++ jstr pid2⟩] ∧
    (deleteCategory cid2 s).1 = .ok (.bool true) ∧
    (deleteCategory cid2 s).2.files categoriesPath =
      some ⟨s.nextSha, .arr (removeById cats cid2)⟩ ∧
    (deleteContact cid s).1 = .ok (.bool true) ∧
    (deleteContact cid s).2.files contactsPath =
      some ⟨s.nextSha, .arr (removeById contacts cid)⟩ ∧
    (removeById contacts cid).all
      (fun p => !(strictEq (propOf p "id") cid)) = true := by
  have hrun := deleteProduct_run hf hdoc pid
  have hrm := removeById_of_fresh habsent
  have hrun2 := deleteProduct_run hf hdoc pid2
  rw [hrm] at hrun2
  refine ⟨?_, ?_, ?_, removeById_all .., hrm, hrun2, ?_, ?_, ?_, ?_, ?_,
    removeById_all ..⟩
  · rw [hrun]
  · rw [hrun]
    exact putStore_files_self ..
  · rw [hrun]
    rw [getProducts_run (putStore_files_self ..) rfl]
  · rw [hrun2]
    exact putStore_writes ..
  · rw [deleteCategory_run hcat hcatdoc cid2]
  · rw [deleteCategory_run hcat hcatdoc cid2]
    exact putStore_files_self ..
  · rw [deleteContact_run hcf hcdoc cid]
  · rw [deleteContact_run hcf hcdoc cid]
    exact putStore_files_self ..

theorem delete_removes_id_witness :
    demoStore.files productsPath = some ⟨1, .arr [demoRec]⟩ ∧
    idFresh (.num 99) [demoRec] = true ∧
    removeById [demoRec] (.num 99) = [demoRec] ∧
    (deleteProduct (.num 7) demoStore).1 = .ok (.bool true) :=
  ⟨rfl, rfl, rfl,
    (delete_removes_id demoStore ⟨1, .arr [demoRec]⟩ ⟨4, .arr []⟩
      ⟨2, .arr [demoCat]⟩ [demoRec] [] [demoCat]
      (.num 7) (.num 99) (.num 5) (.num 3)
      rfl rfl rfl rfl rfl rfl rfl rfl).1⟩

/-- Claim C5, counterexample: no entity operation checks id uniqueness.
Starting from a store whose products sequence has unique ids (the single
record with id 7), addProduct with a colliding id (here Date.now() = 7;
a caller-supplied id: 7 behaves identically by C9) writes back a
sequence in which id 7 occurs twice. -/
theorem addProduct_breaks_uniqueIds :
    uniqueIds (seqAt demoStore productsPath) = true ∧
    uniqueIds (seqAt (addProduct 7 (.obj []) demoStore).2 productsPath) = false :=
  ⟨rfl, rfl⟩

/-- Claim C5 (amended): the operations never check id uniqueness, so the
invariant is only conditionally preserved: delete preserves it
unconditionally; add, saveOrder and saveContact preserve it exactly when
the appended record's id (time-derived or caller-supplied) is fresh in
the sequence; update preserves it when the merged record's id is fresh
among the other records.  With a colliding id (same-millisecond
Date.now(), a caller-supplied duplicate, or an id-changing patch) the
written sequence violates the invariant, as the counterexample shows. -/
theorem entityOps_preserve_uniqueIds (s : Store) (f g h3 : File)
    (products orders contacts : List Json)
    (now : Int) (pd patch orderData contactData pidDel pid : Json) (i : Nat)
    (hf : s.files productsPath = some f) (hdoc : f.doc = .arr products)
    (hg : s.files ordersPath = some g) (hgdoc : g.doc = .arr orders)
    (hc : s.files contactsPath = some h3) (hcdoc : h3.doc = .arr contacts)
    (hu : uniqueIds products = true) (huo : uniqueIds orders = true)
    (huc : uniqueIds contacts = true)
    (hfreshAdd : idFresh (propOf (newRecord now pd) "id") products = true)
    (hidx : findIdxById products pid = some i)
    (hfreshUpd : idFresh (propOf (mergedRecord (products.getD i .undefVal) patch) "id")
      (products.eraseIdx i) = true)
    (hord : isObjJ orderData = true)
    (hfreshOrd : idFresh (propOf orderData "id") orders = true)
    (hcon : isObjJ contactData = true)
    (hfreshCon : idFresh (propOf contactData "id") contacts = true) :
    (addProduct now pd s).2.files productsPath =
      some ⟨s.nextSha, .arr (products ++ [newRecord now pd])⟩ ∧
    uniqueIds (products ++ [newRecord now pd]) = true ∧
    (updateProduct pid patch s).2.files productsPath =
      some ⟨s.nextSha,
        .arr (products.set i (mergedRecord (products.getD i .undefVal) patch))⟩ ∧
    uniqueIds (products.set i (mergedRecord (products.getD i .undefVal) patch)) = true ∧
    (deleteProduct pidDel s).2.files productsPath =
      some ⟨s.nextSha, .arr (removeById products pidDel)⟩ ∧
    uniqueIds (removeById products pidDel) = true ∧
    (saveOrder orderData s).2.files ordersPath =
      some ⟨s.nextSha, .arr (orders ++ [orderData])⟩ ∧
    uniqueIds (orders ++ [orderData]) = true ∧
    (saveContact contactData s).2.files contactsPath =
      some ⟨s.nextSha, .arr (contacts ++ [contactData])⟩ ∧
    uniqueIds (contacts ++ [contactData]) = true := by
  refine ⟨?_, uniqueIds_append_one hu hfreshAdd, ?_,
    uniqueIds_set hu hidx hfreshUpd, ?_, ?_, ?_,
    uniqueIds_append_one huo hfreshOrd, ?_,
    uniqueIds_append_one huc hfreshCon⟩
  · rw [addProduct_run hf hdoc now pd]
    exact putStore_files_self ..
  · rw [updateProduct_found_run hf hdoc hidx patch]
    exact putStore_files_self ..
  · rw [deleteProduct_run hf hdoc pidDel]
    exact putStore_files_self ..
  · exact uniqueIds_filter hu _
  · rw [saveOrder_run hg hgdoc hord]
    exact putStore_files_self ..
  · rw [saveContact_run hc hcdoc hcon]
    exact putStore_files_self ..

theorem entityOps_preserve_uniqueIds_witness :
    uniqueIds [demoRec] = true ∧
    idFresh (propOf (newRecord 99 (.obj [])) "id") [demoRec] = true ∧
    findIdxById [demoRec] (.num 7) = some 0 ∧
    uniqueIds ([demoRec] ++ [newRecord 99 (.obj [])]) = true :=
  ⟨rfl, rfl, rfl,
    (entityOps_preserve_uniqueIds demoStore ⟨1, .arr [demoRec]⟩ ⟨3, .arr []⟩
      ⟨4, .arr []⟩ [demoRec] [] [] 99 (.obj [])
      (.obj [("price", .num 1)]) (.obj [("id", .num 1)]) (.obj [("id", .num 2)])
      (.num 5) (.num 7) 0
      rfl rfl rfl rfl rfl rfl rfl rfl rfl rfl rfl rfl rfl rfl rfl rfl).2.1⟩

/-! Helper run lemmas for the bulk import. -/

theorem mbind_getPropM {j : Json} (h : isObjJ j = true) (k : String)
    {β : Type} (f2 : Json → M β) (s : Store) :
    mbind (getPropM j k) f2 s = f2 (propOf j k) s := by
  rw [mbind_ok (getPropM_obj h k s)]

theorem importOpt_found {s : Store} {path : String} {f : File}
    (hfile : s.files path = some f) {v : Json} (htrue : truthy v = true)
    {msg : String} :
    importOpt path v msg s = (.ok (), putStore s path v .put (some f.sha) msg) := by
  unfold importOpt
  rw [htrue]
  show mbind (saveFile path v msg) (fun _ => mret ()) s = _
  rw [mbind_ok (saveFile_found hfile)]
  rfl

theorem importOpt_skip {v : Json} (h : truthy v = false) {path msg : String}
    {s : Store} : importOpt path v msg s = (.ok (), s) := by
  unfold importOpt
  rw [h]
  rfl

/-- Claim C4: exportData followed by importData on its result rewrites
the five live documents with exactly the values exportData read - the
round-trip law - issuing exactly five PUT writes; importData fails with
the (rewrapped) validation error on every object snapshot whose
products member is absent, and likewise when categories is absent, and
performs no write there; and for a snapshot carrying only products and
categories, the orders / contacts / website documents are left entirely
untouched (they are written only when present), with exactly two writes
issued. -/
theorem export_import_roundTrip (s : Store) (f1 f2 f3 f4 f5 : File)
    (d1 d2 d3 d4 d5 : Json) (ts : String)
    (snapBad snapBad2 snapMin : Json)
    (bf bf2 mf : List (String × Json))
    (hp : s.files productsPath = some f1) (hd1 : f1.doc = d1)
    (ht1 : truthy d1 = true)
    (hc : s.files categoriesPath = some f2) (hd2 : f2.doc = d2)
    (ht2 : truthy d2 = true)
    (ho : s.files ordersPath = some f3) (hd3 : f3.doc = d3)
    (ht3 : truthy d3 = true)
    (hct : s.files contactsPath = some f4) (hd4 : f4.doc = d4)
    (ht4 : truthy d4 = true)
    (hw : s.files websitePath = some f5) (hd5 : f5.doc = d5)
    (ht5 : truthy d5 = true)
    (hB : snapBad = .obj bf) (hBp : propOf snapBad "products" = .undefVal)
    (hB2 : snapBad2 = .obj bf2)
    (hB2p : truthy (propOf snapBad2 "products") = true)
    (hB2c : propOf snapBad2 "categories" = .undefVal)
    (hM : snapMin = .obj mf)
    (hMp : truthy (propOf snapMin "products") = true)
    (hMc : truthy (propOf snapMin "categories") = true)
    (hMo : propOf snapMin "orders" = .undefVal)
    (hMct : propOf snapMin "contacts" = .undefVal)
    (hMw : propOf snapMin "website" = .undefVal) :
    exportData ts s = (.ok (exportSnapshot ts d1 d2 d3 d4 d5), s) ∧
    (importData (exportSnapshot ts d1 d2 d3 d4 d5) s).1 = .ok importOkResp ∧
    (importData (exportSnapshot ts d1 d2 d3 d4 d5) s).2.files productsPath =
      some ⟨s.nextSha, d1⟩ ∧
    (importData (exportSnapshot ts d1 d2 d3 d4 d5) s).2.files categoriesPath =
      some ⟨s.nextSha + 1, d2⟩ ∧
    (importData (exportSnapshot ts d1 d2 d3 d4 d5) s).2.files ordersPath =
      some ⟨s.nextSha + 2, d3⟩ ∧
    (importData (exportSnapshot ts d1 d2 d3 d4 d5) s).2.files contactsPath =
      some ⟨s.nextSha + 3, d4⟩ ∧
    (importData (exportSnapshot ts d1 d2 d3 d4 d5) s).2.files websitePath =
      some ⟨s.nextSha + 4, d5⟩ ∧
    (importData (exportSnapshot ts d1 d2 d3 d4 d5) s).2.writes = s.writes ++
      [⟨productsPath, .put, d1, some f1.sha, "Import products"⟩,
       ⟨categoriesPath, .put, d2, some f2.sha, "Import categories"⟩,
       ⟨ordersPath, .put, d3, some f3.sha, "Import orders"⟩,
       ⟨contactsPath, .put, d4, some f4.sha, "Import contacts"⟩,
       ⟨websitePath, .put, d5, some f5.sha, "Import website config"⟩] ∧
    importData snapBad s =
      (.error ⟨"Failed to import data: Invalid import data format"⟩, s) ∧
    importData snapBad2 s =
      (.error ⟨"Failed to import data: Invalid import data format"⟩, s) ∧
    (importData snapMin s).1 = .ok importOkResp ∧
    (importData snapMin s).2.files ordersPath = s.files ordersPath ∧
    (importData snapMin s).2.files contactsPath = s.files contactsPath ∧
    (importData snapMin s).2.files websitePath = s.files websitePath ∧
    (importData snapMin s).2.writes = s.writes ++
      [⟨productsPath, .put, propOf snapMin "products", some f1.sha,
        "Import products"⟩,
       ⟨categoriesPath, .put, propOf snapMin "categories", some f2.sha,
        "Import categories"⟩] := by
  have pq12 : productsPath ≠ categoriesPath := by decide
  have pq13 : productsPath ≠ ordersPath := by decide
  have pq14 : productsPath ≠ contactsPath := by decide
  have pq15 : productsPath ≠ websitePath := by decide
  have pq23 : categoriesPath ≠ ordersPath := by decide
  have pq24 : categoriesPath ≠ contactsPath := by decide
  have pq25 : categoriesPath ≠ websitePath := by decide
  have pq34 : ordersPath ≠ contactsPath := by decide
  have pq35 : ordersPath ≠ websitePath := by decide
  have pq45 : contactsPath ≠ websitePath := by decide
  have e1 : getProducts s = (.ok d1, s) := by
    unfold getProducts; rw [getFile_found hp, hd1]
  have e2 : getCategories s = (.ok d2, s) := by
    unfold getCategories; rw [getFile_found hc, hd2]
  have e3 : getOrders s = (.ok d3, s) := by
    unfold getOrders; rw [getFile_found ho, hd3]
  have e4 : getContacts s = (.ok d4, s) := by
    unfold getContacts; rw [getFile_found hct, hd4]
  have e5 : getWebsiteConfig s = (.ok d5, s) := by
    unfold getWebsiteConfig; rw [getFile_found hw, hd5]
  have hexp : exportData ts s = (.ok (exportSnapshot ts d1 d2 d3 d4 d5), s) := by
    unfold exportData
    refine mtry_ok ?_
    unfold exportBody
    simp only [mbind_ok e1, mbind_ok e2, mbind_ok e3, mbind_ok e4, mbind_ok e5]
    rfl
  have hobjS : isObjJ (exportSnapshot ts d1 d2 d3 d4 d5) = true := rfl
  have v1 : propOf (exportSnapshot ts d1 d2 d3 d4 d5) "products" = d1 := rfl
  have v2 : propOf (exportSnapshot ts d1 d2 d3 d4 d5) "categories" = d2 := rfl
  have v3 : propOf (exportSnapshot ts d1 d2 d3 d4 d5) "orders" = d3 := rfl
  have v4 : propOf (exportSnapshot ts d1 d2 d3 d4 d5) "contacts" = d4 := rfl
  have v5 : propOf (exportSnapshot ts d1 d2 d3 d4 d5) "website" = d5 := rfl
  have hp2 : (putStore s productsPath d1 .put (some f1.sha)
      "Import products").files categoriesPath = some f2 := by
    rw [putStore_files_ne (Ne.symm pq12)]; exact hc
  have ho2 : (putStore (putStore s productsPath d1 .put (some f1.sha)
      "Import products") categoriesPath d2 .put (some f2.sha)
      "Import categories").files ordersPath = some f3 := by
    rw [putStore_files_ne (Ne.symm pq23), putStore_files_ne (Ne.symm pq13)]
    exact ho
  have hct2 : (putStore (putStore (putStore s productsPath d1 .put (some f1.sha)
      "Import products") categoriesPath d2 .put (some f2.sha)
      "Import categories") ordersPath d3 .put (some f3.sha)
      "Import orders").files contactsPath = some f4 := by
    rw [putStore_files_ne (Ne.symm pq34), putStore_files_ne (Ne.symm pq24),
      putStore_files_ne (Ne.symm pq14)]
    exact hct
  have hw2 : (putStore (putStore (putStore (putStore s productsPath d1 .put
      (some f1.sha) "Import products") categoriesPath d2 .put (some f2.sha)
      "Import categories") ordersPath d3 .put (some f3.sha)
      "Import orders") contactsPath d4 .put (some f4.sha)
      "Import contacts").files websitePath = some f5 := by
    rw [putStore_files_ne (Ne.symm pq45), putStore_files_ne (Ne.symm pq35),
      putStore_files_ne (Ne.symm pq25), putStore_files_ne (Ne.symm pq15)]
    exact hw
  have hcond : ¬((!truthy d1 || !truthy d2) = true) := by
    rw [ht1, ht2]
    simp
  have himp : importData (exportSnapshot ts d1 d2 d3 d4 d5) s =
      (.ok importOkResp,
        putStore (putStore (putStore (putStore (putStore s productsPath d1 .put
          (some f1.sha) "Import products") categoriesPath d2 .put (some f2.sha)
          "Import categories") ordersPath d3 .put (some f3.sha)
          "Import orders") contactsPath d4 .put (some f4.sha)
          "Import contacts") websitePath d5 .put (some f5.sha)
          "Import website config") := by
    unfold importData
    refine mtry_ok ?_
    unfold importBody
    simp only [mbind_getPropM hobjS, v1, v2]
    rw [if_neg hcond]
    simp only [mbind_ok (saveFile_found hp), mbind_ok (saveFile_found hp2),
      mbind_getPropM hobjS, v3, v4, v5,
      mbind_ok (importOpt_found ho2 ht3), mbind_ok (importOpt_found hct2 ht4),
      mbind_ok (importOpt_found hw2 ht5)]
    rfl
  have hobjB : isObjJ snapBad = true := by rw [hB]; rfl
  have hbad : importData snapBad s =
      (.error ⟨"Failed to import data: Invalid import data format"⟩, s) := by
    unfold importData
    have hbody : importBody snapBad s =
        (.error ⟨"Invalid import data format"⟩, s) := by
      unfold importBody
      simp only [mbind_getPropM hobjB]
      rw [hBp]
      rfl
    rw [mtry_err hbody]
    rfl
  have hobjB2 : isObjJ snapBad2 = true := by rw [hB2]; rfl
  have hbad2 : importData snapBad2 s =
      (.error ⟨"Failed to import data: Invalid import data format"⟩, s) := by
    unfold importData
    have hbody : importBody snapBad2 s =
        (.error ⟨"Invalid import data format"⟩, s) := by
      unfold importBody
      simp only [mbind_getPropM hobjB2]
      rw [hB2c, hB2p]
      rfl
    rw [mtry_err hbody]
    rfl
  have hobjM : isObjJ snapMin = true := by rw [hM]; rfl
  have hcondM : ¬((!truthy (propOf snapMin "products") ||
      !truthy (propOf snapMin "categories")) = true) := by
    rw [hMp, hMc]
    simp
  have hp2M : (putStore s productsPath (propOf snapMin "products") .put
      (some f1.sha) "Import products").files categoriesPath = some f2 := by
    rw [putStore_files_ne (Ne.symm pq12)]; exact hc
  have hmin : importData snapMin s = (.ok importOkResp,
      putStore (putStore s productsPath (propOf snapMin "products") .put
        (some f1.sha) "Import products") categoriesPath
        (propOf snapMin "categories") .put (some f2.sha)
        "Import categories") := by
    unfold importData
    refine mtry_ok ?_
    unfold importBody
    have tM1 : truthy (propOf snapMin "orders") = false := by rw [hMo]; rfl
    have tM2 : truthy (propOf snapMin "contacts") = false := by rw [hMct]; rfl
    have tM3 : truthy (propOf snapMin "website") = false := by rw [hMw]; rfl
    simp only [mbind_getPropM hobjM]
    rw [if_neg hcondM]
    simp only [mbind_ok (saveFile_found hp), mbind_ok (saveFile_found hp2M),
      mbind_getPropM hobjM, mbind_ok (importOpt_skip tM1),
      mbind_ok (importOpt_skip tM2), mbind_ok (importOpt_skip tM3)]
    rfl
  refine ⟨hexp, ?_, ?_, ?_, ?_, ?_, ?_, ?_, hbad, hbad2, ?_, ?_, ?_, ?_, ?_⟩
  · rw [himp]
  · rw [himp]
    rw [putStore_files_ne pq15, putStore_files_ne pq14, putStore_files_ne pq13,
      putStore_files_ne pq12, putStore_files_self]
  · rw [himp]
    rw [putStore_files_ne pq25, putStore_files_ne pq24, putStore_files_ne pq23,
      putStore_files_self, putStore_nextSha]
  · rw [himp]
    rw [putStore_files_ne pq35, putStore_files_ne pq34, putStore_files_self,
      putStore_nextSha, putStore_nextSha]
  · rw [himp]
    rw [putStore_files_ne pq45, putStore_files_self, putStore_nextSha,
      putStore_nextSha, putStore_nextSha]
  · rw [himp]
    rw [putStore_files_self, putStore_nextSha, putStore_nextSha,
      putStore_nextSha, putStore_nextSha]
  · rw [himp]
    simp only [putStore_writes]
    simp [List.append_assoc]
  · rw [hmin]
  · rw [hmin]
    rw [putStore_files_ne (Ne.symm pq23), putStore_files_ne (Ne.symm pq13)]
  · rw [hmin]
    rw [putStore_files_ne (Ne.symm pq24), putStore_files_ne (Ne.symm pq14)]
  · rw [hmin]
    rw [putStore_files_ne (Ne.symm pq25), putStore_files_ne (Ne.symm pq15)]
  · rw [hmin]
    simp only [putStore_writes]
    simp [List.append_assoc]

theorem export_import_roundTrip_witness :
    demoStore.files productsPath = some ⟨1, .arr [demoRec]⟩ ∧
    truthy (.arr [demoRec]) = true ∧
    exportData "2024-01-01T00:00:00Z" demoStore =
      (.ok (exportSnapshot "2024-01-01T00:00:00Z" (.arr [demoRec])
        (.arr [demoCat]) (.arr []) (.arr []) defaultWebsite), demoStore) :=
  ⟨rfl, rfl,
    (export_import_roundTrip demoStore ⟨1, .arr [demoRec]⟩ ⟨2, .arr [demoCat]⟩
      ⟨3, .arr []⟩ ⟨4, .arr []⟩ ⟨5, defaultWebsite⟩
      (.arr [demoRec]) (.arr [demoCat]) (.arr []) (.arr []) defaultWebsite
      "2024-01-01T00:00:00Z"
      (.obj [("categories", .arr [])]) (.obj [("products", .arr [])])
      (.obj [("products", .arr []), ("categories", .arr [])])
      [("categories", .arr [])] [("products", .arr [])]
      [("products", .arr []), ("categories", .arr [])]
      rfl rfl rfl rfl rfl rfl rfl rfl rfl rfl rfl rfl rfl rfl rfl
      rfl rfl rfl rfl rfl rfl rfl rfl rfl rfl rfl).1⟩

end Djandes
